import Mathlib

/-!
Verification of the Zeppelin automod trigger registry
(`src/backend/src/plugins/Automod/triggers/availableTriggers.ts`) and of the
Utility plugin's clean command
(`src/backend/src/plugins/Utility/commands/CleanCmd.ts`), together with the
spam-counting contract of the spec.
-/

namespace Zeppelin

/-!
## Trigger registry

Each trigger blueprint (`MatchWordsTrigger`, …) is imported from its own
module and carries its own io-ts configuration schema in its `configType`
field.  The blueprint modules are external to the files embedded here, so a
blueprint is modelled as an atom carrying an opaque, kind-specific schema
atom; the registry itself is translated literally from
`availableTriggers.ts`.
-/

/-- Opaque stand-ins for the sixteen kind-specific io-ts config schemas
(each trigger module defines its own `configType`). -/
inductive ConfigSchema
  | matchWordsSchema
  | matchRegexSchema
  | matchInvitesSchema
  | matchLinksSchema
  | matchAttachmentTypeSchema
  | memberJoinSchema
  | roleAddedSchema
  | roleRemovedSchema
  | messageSpamSchema
  | mentionSpamSchema
  | linkSpamSchema
  | attachmentSpamSchema
  | emojiSpamSchema
  | lineSpamSchema
  | characterSpamSchema
  | memberJoinSpamSchema
  deriving DecidableEq, Repr

/-- An automod trigger blueprint, as far as the registry file observes it:
a value exposing its configuration schema (`configType`). -/
structure AutomodTriggerBlueprint where
  configType : ConfigSchema
  deriving DecidableEq, Repr

def MatchWordsTrigger : AutomodTriggerBlueprint := ⟨ConfigSchema.matchWordsSchema⟩

def MatchRegexTrigger : AutomodTriggerBlueprint := ⟨ConfigSchema.matchRegexSchema⟩

def MatchInvitesTrigger : AutomodTriggerBlueprint := ⟨ConfigSchema.matchInvitesSchema⟩

def MatchLinksTrigger : AutomodTriggerBlueprint := ⟨ConfigSchema.matchLinksSchema⟩

def MatchAttachmentTypeTrigger : AutomodTriggerBlueprint := ⟨ConfigSchema.matchAttachmentTypeSchema⟩

def MemberJoinTrigger : AutomodTriggerBlueprint := ⟨ConfigSchema.memberJoinSchema⟩

def RoleAddedTrigger : AutomodTriggerBlueprint := ⟨ConfigSchema.roleAddedSchema⟩

def RoleRemovedTrigger : AutomodTriggerBlueprint := ⟨ConfigSchema.roleRemovedSchema⟩

def MessageSpamTrigger : AutomodTriggerBlueprint := ⟨ConfigSchema.messageSpamSchema⟩

def MentionSpamTrigger : AutomodTriggerBlueprint := ⟨ConfigSchema.mentionSpamSchema⟩

def LinkSpamTrigger : AutomodTriggerBlueprint := ⟨ConfigSchema.linkSpamSchema⟩

def AttachmentSpamTrigger : AutomodTriggerBlueprint := ⟨ConfigSchema.attachmentSpamSchema⟩

def EmojiSpamTrigger : AutomodTriggerBlueprint := ⟨ConfigSchema.emojiSpamSchema⟩

def LineSpamTrigger : AutomodTriggerBlueprint := ⟨ConfigSchema.lineSpamSchema⟩

def CharacterSpamTrigger : AutomodTriggerBlueprint := ⟨ConfigSchema.characterSpamSchema⟩

def MemberJoinSpamTrigger : AutomodTriggerBlueprint := ⟨ConfigSchema.memberJoinSpamSchema⟩

/-- The trigger registry, translated from the `availableTriggers` object
literal: a record from trigger-kind name to blueprint, in source order. -/
def availableTriggers : List (String × AutomodTriggerBlueprint) :=
  [ ("match_words", MatchWordsTrigger),
    ("match_regex", MatchRegexTrigger),
    ("match_invites", MatchInvitesTrigger),
    ("match_links", MatchLinksTrigger),
    ("match_attachment_type", MatchAttachmentTypeTrigger),
    ("member_join", MemberJoinTrigger),
    ("role_added", RoleAddedTrigger),
    ("role_removed", RoleRemovedTrigger),
    ("message_spam", MessageSpamTrigger),
    ("mention_spam", MentionSpamTrigger),
    ("link_spam", LinkSpamTrigger),
    ("attachment_spam", AttachmentSpamTrigger),
    ("emoji_spam", EmojiSpamTrigger),
    ("line_spam", LineSpamTrigger),
    ("character_spam", CharacterSpamTrigger),
    ("member_join_spam", MemberJoinSpamTrigger) ]

/-- The `AvailableTriggers` config-schema object (`t.type({...})`), translated
from the source literal: each field is bound to a blueprint's `configType`. -/
def AvailableTriggers : List (String × ConfigSchema) :=
  [ ("match_words", MatchWordsTrigger.configType),
    ("match_regex", MatchRegexTrigger.configType),
    ("match_invites", MatchInvitesTrigger.configType),
    ("match_links", MatchLinksTrigger.configType),
    ("match_attachment_type", MatchAttachmentTypeTrigger.configType),
    ("member_join", MemberJoinTrigger.configType),
    ("role_added", RoleAddedTrigger.configType),
    ("role_removed", RoleRemovedTrigger.configType),
    ("message_spam", MessageSpamTrigger.configType),
    ("mention_spam", MentionSpamTrigger.configType),
    ("link_spam", LinkSpamTrigger.configType),
    ("attachment_spam", AttachmentSpamTrigger.configType),
    ("emoji_spam", EmojiSpamTrigger.configType),
    ("line_spam", LineSpamTrigger.configType),
    ("character_spam", CharacterSpamTrigger.configType),
    ("member_join_spam", MemberJoinSpamTrigger.configType) ]

/-- The sixteen trigger kinds the spec names: the eight instantaneous kinds
followed by the eight windowed kinds. -/
def triggerKindNames : List String :=
  [ "match_words", "match_regex", "match_invites", "match_links",
    "match_attachment_type", "member_join", "role_added", "role_removed",
    "message_spam", "mention_spam", "link_spam", "attachment_spam",
    "emoji_spam", "line_spam", "character_spam", "member_join_spam" ]

/-- Error raised by the registry lookup when a kind is absent. -/
inductive TriggerRegistryError
  | UnknownTriggerKind
  deriving DecidableEq, Repr

/-- Modelled from the spec: the registry lookup `get(kind) -> TriggerSpec`,
which "fails with UnknownTriggerKind if absent".  The lookup's implementation
is not under src/ (only the registry it reads is), so it is modelled from the
spec's words over the embedded `availableTriggers` registry. -/
def registryGet (kind : String) : Except TriggerRegistryError AutomodTriggerBlueprint :=
  match List.lookup kind availableTriggers with
  | some bp => Except.ok bp
  | none => Except.error TriggerRegistryError.UnknownTriggerKind

/-!
## Closure of the registry (C7)

`availableTriggers` is a `const` bound to an object literal; the embedded
sources contain no statement that assigns to it, deletes from it, or writes
a property of it after that initialization.  To state this as a frame
property, the module's registry-affecting statements are listed as an
explicit operation trace (translated from the source, where the only such
statement is the initializing literal) and replayed.
-/

/-- The registry-affecting operations a module could perform: the initial
object-literal construction, an added entry, a deleted entry, or a replaced
entry. -/
inductive RegistryOp
  | initLiteral (entries : List (String × AutomodTriggerBlueprint))
  | addEntry (kind : String) (bp : AutomodTriggerBlueprint)
  | removeEntry (kind : String)
  | replaceEntry (kind : String) (bp : AutomodTriggerBlueprint)

/-- The registry-affecting statements of `availableTriggers.ts` in program
order: the source builds the registry once as an object literal and contains
no other statement touching it. -/
def moduleRegistryOps : List RegistryOp :=
  [RegistryOp.initLiteral availableTriggers]

/-- Replay a trace of registry operations on the (initially absent)
registry. -/
def applyRegistryOps :
    List RegistryOp → Option (List (String × AutomodTriggerBlueprint))
      → Option (List (String × AutomodTriggerBlueprint))
  | [], st => st
  | RegistryOp.initLiteral es :: rest, _ => applyRegistryOps rest (some es)
  | RegistryOp.addEntry k bp :: rest, st =>
      applyRegistryOps rest (st.map (fun es => es ++ [(k, bp)]))
  | RegistryOp.removeEntry k :: rest, st =>
      applyRegistryOps rest (st.map (fun es => es.filter (fun e => e.1 ≠ k)))
  | RegistryOp.replaceEntry k bp :: rest, st =>
      applyRegistryOps rest
        (st.map (fun es => es.map (fun e => if e.1 = k then (k, bp) else e)))

/-- Whether an operation mutates an already-built registry (anything other
than the initial literal construction). -/
def isMutationOp : RegistryOp → Bool
  | RegistryOp.initLiteral _ => false
  | _ => true

/-!
## SpamTracker (C5)

The spam-counting subsystem is not under src/; per the spec, `addPoint`
appends a point (inserting in timestamp order to tolerate bounded skew),
purges points older than `timestamp - windowSize`, and returns the sum of
the weights remaining in the window.
-/

/-- One unit of spam weight: a timestamp (milliseconds) and a weight. -/
structure SpamPoint where
  timestamp : Int
  weight : Int
  deriving DecidableEq, Repr

/-- Sum of the weights of a window state. -/
def sumWeights (st : List SpamPoint) : Int :=
  (st.map SpamPoint.weight).sum

/-- Modelled from the spec: out-of-order arrival within the skew tolerance is
handled by inserting the point in timestamp order ("insert in order, still
correct"). -/
def insertPointOrdered (pt : SpamPoint) : List SpamPoint → List SpamPoint
  | [] => [pt]
  | q :: qs =>
      if pt.timestamp ≤ q.timestamp then pt :: q :: qs
      else q :: insertPointOrdered pt qs

/-- Modelled from the spec: `addPoint` "appends a SpamPoint, purges points
older than `timestamp - windowSize` for that key, and returns the sum of
weights remaining in the window" (SpamTracker source is not under src/). -/
def addPoint (windowSize : Int) (state : List SpamPoint) (pt : SpamPoint) :
    Int × List SpamPoint :=
  let inserted := insertPointOrdered pt state
  let purged := inserted.filter (fun p => pt.timestamp - windowSize ≤ p.timestamp)
  (sumWeights purged, purged)

/-- Feed a sequence of points into a fresh window via `addPoint`; the first
component is the count returned by the last call. -/
def addPoints (windowSize : Int) (pts : List SpamPoint) : Int × List SpamPoint :=
  pts.foldl (fun acc pt => addPoint windowSize acc.2 pt) (0, [])

/-!
## The clean command (`CleanCmd.ts`)

Timestamps are in milliseconds (`moment.utc(...).valueOf()`); the time
constants come from the utility module's conventional millisecond units
(`SECONDS = 1000`, `DAYS = 24 * 60 * 60 * SECONDS`).  The message store
(`savedMessages.getLatestByChannelBeforeId`) and invite-code extraction
(`getInviteCodesInString`) are external collaborators and are taken as
parameters.
-/

def SECONDS : Int := 1000

def DAYS : Int := 24 * 60 * 60 * SECONDS

def MAX_CLEAN_COUNT : Int := 150

def MAX_CLEAN_TIME : Int := 1 * DAYS

def CLEAN_COMMAND_DELETE_DELAY : Int := 5 * SECONDS

/-- A stored message, as the clean command observes it: snowflake id, author
id, bot flag, text content (`data.content`, with absent content modelled as
the empty string the code coalesces to), and `posted_at` as epoch
milliseconds. -/
structure SavedMessage where
  id : Nat
  user_id : Nat
  is_bot : Bool
  content : String
  posted_at : Int
  deriving DecidableEq, Repr

/-- The parsed arguments of the clean command. -/
structure CleanArgs where
  count : Int
  user : Option Nat
  channel : Option Nat
  bots : Bool
  has_invites : Bool
  deriving DecidableEq, Repr

/-- The invoking command message: id, channel, author, timestamp. -/
structure Msg where
  id : Nat
  channelId : Nat
  authorId : Nat
  timestamp : Int
  deriving DecidableEq, Repr

/-- A guild channel as the command observes it: its id and whether it is a
text channel. -/
structure GuildChannel where
  id : Nat
  isTextChannel : Bool
  deriving DecidableEq, Repr

/-- The per-batch filter of the paging loop, translated from the source:
reject on user mismatch, on non-bot when `bots` is set, on missing invite
codes when `has-invites` is set, and on being older than the cutoff. -/
def messagePassesFilters (getInviteCodesInString : String → List String)
    (args : CleanArgs) (timeCutoff : Int) (message : SavedMessage) : Bool :=
  if Option.any (fun u => message.user_id != u) args.user then false
  else if args.bots && !message.is_bot then false
  else if args.has_invites && (getInviteCodesInString message.content).length == 0 then false
  else if message.posted_at < timeCutoff then false
  else true

/-- One recorded message-store fetch of the paging loop: the arguments it was
called with and the batch it returned. -/
structure FetchRecord where
  channelId : Nat
  beforeId : Nat
  limit : Int
  batch : List SavedMessage
  deriving DecidableEq, Repr

/-- Why the paging loop stopped. -/
inductive LoopStop
  | emptyBatch
  | oldestTooOld
  | quotaReached
  | fuelExhausted
  deriving DecidableEq, Repr

/-- The paging loop's result: the collected messages, the trace of store
fetches, and the stop cause. -/
structure LoopResult where
  messagesToClean : List SavedMessage
  fetches : List FetchRecord
  stop : LoopStop
  deriving DecidableEq, Repr

/-- The clean command's paging loop, translated from the source `while`
loop; `fuel` bounds the number of iterations (the TypeScript loop has no
such bound).  Each iteration fetches
`getLatestByChannelBeforeId(targetChannel.id, beforeId, args.count)`
(newest-to-oldest), breaks on an empty batch, filters the batch, appends at
most the remaining quota, advances `beforeId` to the id of the batch's last
(oldest) message, and breaks when that oldest message is older than the
cutoff. -/
def cleanLoop (store : Nat → Nat → Int → List SavedMessage)
    (getInviteCodesInString : String → List String)
    (args : CleanArgs) (targetChannelId : Nat) (timeCutoff : Int) :
    Nat → Nat → List SavedMessage → LoopResult
  | 0, _, messagesToClean => ⟨messagesToClean, [], LoopStop.fuelExhausted⟩
  | fuel + 1, beforeId, messagesToClean =>
    if (messagesToClean.length : Int) < args.count then
      let potential := store targetChannelId beforeId args.count
      match potential.getLast? with
      | none =>
          ⟨messagesToClean, [⟨targetChannelId, beforeId, args.count, potential⟩],
            LoopStop.emptyBatch⟩
      | some last =>
          let filtered :=
            potential.filter (messagePassesFilters getInviteCodesInString args timeCutoff)
          let remaining := args.count - (messagesToClean.length : Int)
          let withoutOverflow := filtered.take remaining.toNat
          let acc := messagesToClean ++ withoutOverflow
          if last.posted_at < timeCutoff then
            ⟨acc, [⟨targetChannelId, beforeId, args.count, potential⟩],
              LoopStop.oldestTooOld⟩
          else
            let rest :=
              cleanLoop store getInviteCodesInString args targetChannelId timeCutoff
                fuel last.id acc
            ⟨rest.messagesToClean,
              ⟨targetChannelId, beforeId, args.count, potential⟩ :: rest.fetches,
              rest.stop⟩
    else ⟨messagesToClean, [], LoopStop.quotaReached⟩

/-- How many messages are collected after processing one batch: the previous
count plus the batch's filtered messages truncated to the remaining quota. -/
def collectedAfter (getInviteCodesInString : String → List String)
    (args : CleanArgs) (timeCutoff : Int) (accLen : Nat)
    (batch : List SavedMessage) : Nat :=
  accLen + ((batch.filter (messagePassesFilters getInviteCodesInString args timeCutoff)).take
      (args.count - (accLen : Int)).toNat).length

/-- The paging discipline claimed of the loop, as a predicate on a fetch
trace: a fetch happens only while the quota is unmet and always uses the
target channel, the current cursor and the requested count as limit; after a
non-empty batch the cursor advances to the id of the batch's last (oldest)
message; the trace ends exactly on an empty batch, on an oldest-too-old
batch, on the quota being reached, or on fuel running out. -/
def traceOk (getInviteCodesInString : String → List String)
    (args : CleanArgs) (targetChannelId : Nat) (timeCutoff : Int) :
    Nat → Nat → List FetchRecord → LoopStop → Bool
  | _, accLen, [], stop =>
      match stop with
      | LoopStop.quotaReached => decide (args.count ≤ (accLen : Int))
      | LoopStop.fuelExhausted => true
      | _ => false
  | cursor, accLen, f :: rest, stop =>
      decide ((accLen : Int) < args.count) &&
      (f.channelId == targetChannelId) && (f.beforeId == cursor) &&
      (f.limit == args.count) &&
      match f.batch.getLast? with
      | none => rest.isEmpty && (stop == LoopStop.emptyBatch)
      | some last =>
          if last.posted_at < timeCutoff then
            rest.isEmpty && (stop == LoopStop.oldestTooOld)
          else
            traceOk getInviteCodesInString args targetChannelId timeCutoff
              last.id
              (collectedAfter getInviteCodesInString args timeCutoff accLen f.batch)
              rest stop

/-- The response the command sends. -/
inductive CleanResponse
  | countError
  | invalidChannel
  | missingPermissions
  | success (count : Nat) (otherChannel : Bool)
  | noMessagesError
  deriving DecidableEq, Repr

/-- The text of each response; a cross-channel success response additionally
appends the channel mention and the archive URL, which depend on external
archive state and are not modelled. -/
def responseText : CleanResponse → String
  | CleanResponse.countError =>
      "Clean count must be between 1 and " ++ toString MAX_CLEAN_COUNT
  | CleanResponse.invalidChannel => "Invalid channel specified"
  | CleanResponse.missingPermissions =>
      "Missing permissions to use clean on that channel"
  | CleanResponse.noMessagesError => "Found no messages to clean!"
  | CleanResponse.success n _ =>
      "Cleaned " ++ toString n ++ (if n == 1 then " message" else " messages")

/-- The observable outcome of one `run` of the clean command: the response
sent, the store fetches performed, the messages passed to `cleanMessages`
(deleted and archived; empty when none were passed), and, when the command
falls through to the final `setTimeout`, the delay after which deletion of
the invoking message and of the response message is scheduled (deletion
failures are swallowed with `.catch(noop)`). -/
structure RunOutcome where
  response : CleanResponse
  fetches : List FetchRecord
  cleaned : List SavedMessage
  scheduledDeletion : Option Int
  deriving DecidableEq, Repr

/-- Target-channel resolution: the channel option if given (looked up in the
guild), otherwise the channel the command was invoked in (a text channel by
construction). -/
def resolveTargetChannel (channels : Nat → Option GuildChannel) (msg : Msg)
    (args : CleanArgs) : Option GuildChannel :=
  match args.channel with
  | some cid => channels cid
  | none => some ⟨msg.channelId, true⟩

/-- The clean command's `run`, translated from the source:
`canCleanOnTargetChannel c` models whether the matching config for the
invoking user on channel `c` has `can_clean === true`. -/
def run (store : Nat → Nat → Int → List SavedMessage)
    (getInviteCodesInString : String → List String)
    (channels : Nat → Option GuildChannel)
    (canCleanOnTargetChannel : Nat → Bool)
    (fuel : Nat) (msg : Msg) (args : CleanArgs) : RunOutcome :=
  if args.count > MAX_CLEAN_COUNT ∨ args.count ≤ 0 then
    ⟨CleanResponse.countError, [], [], none⟩
  else
    match resolveTargetChannel channels msg args with
    | none => ⟨CleanResponse.invalidChannel, [], [], none⟩
    | some targetChannel =>
      if targetChannel.isTextChannel = false then
        ⟨CleanResponse.invalidChannel, [], [], none⟩
      else if targetChannel.id ≠ msg.channelId
          ∧ canCleanOnTargetChannel targetChannel.id ≠ true then
        ⟨CleanResponse.missingPermissions, [], [], none⟩
      else
        let timeCutoff := msg.timestamp - MAX_CLEAN_TIME
        let r := cleanLoop store getInviteCodesInString args targetChannel.id
          timeCutoff fuel msg.id []
        let response :=
          if r.messagesToClean.length > 0 then
            CleanResponse.success r.messagesToClean.length
              (targetChannel.id != msg.channelId)
          else CleanResponse.noMessagesError
        ⟨response, r.fetches, r.messagesToClean,
          if targetChannel.id = msg.channelId then some CLEAN_COMMAND_DELETE_DELAY
          else none⟩

/-- A generic fact about association lists: a lookup succeeds exactly on the
keys. -/
theorem lookup_isSome_eq_contains_keys {α : Type} (k : String) (l : List (String × α)) :
    (List.lookup k l).isSome = (l.map Prod.fst).contains k := by
  induction l with
  | nil => rfl
  | cons e t ih =>
    by_cases h : k = e.1
    · simp [List.lookup, h]
    · have hb : (k == e.1) = false := by
        simp [h]
      simp [List.lookup, hb, ih, List.contains_cons]

/-- C1: the registry `availableTriggers` maps exactly the sixteen trigger
kinds the spec names — a lookup succeeds exactly on those sixteen names —
and its keys are pairwise distinct, so it contains no other keys. -/
theorem availableTriggers_keys_exact :
    (∀ k : String,
        (List.lookup k availableTriggers).isSome = triggerKindNames.contains k)
      ∧ (availableTriggers.map Prod.fst).Nodup
      ∧ availableTriggers.map Prod.fst = triggerKindNames := by
  refine ⟨fun k => ?_, by decide, by decide⟩
  rw [lookup_isSome_eq_contains_keys]
  rfl

/-- C2: the config-schema object has the same key set as the registry, and
each key is bound to that kind's own blueprint `configType`. -/
theorem availableTriggers_schema_aligned :
    ∀ k : String,
      List.lookup k AvailableTriggers
        = (List.lookup k availableTriggers).map AutomodTriggerBlueprint.configType := by
  have h : AvailableTriggers
      = availableTriggers.map (fun e => (e.1, e.2.configType)) := by rfl
  intro k
  rw [h]
  induction availableTriggers with
  | nil => rfl
  | cons e t ih =>
    by_cases hk : k = e.1
    · simp [List.lookup, hk]
    · have hb : (k == e.1) = false := by simp [hk]
      simp [List.lookup, hb, ih]

/-- C3: looking up a kind absent from the registry fails with
`UnknownTriggerKind` instead of producing a blueprint. -/
theorem registryGet_unknown_kind (kind : String)
    (h : List.lookup kind availableTriggers = none) :
    registryGet kind = Except.error TriggerRegistryError.UnknownTriggerKind := by
  simp [registryGet, h]

/-- Witness for C3 at the concrete absent kind name "unknown_kind". -/
theorem registryGet_unknown_kind_witness :
    List.lookup "unknown_kind" availableTriggers = none
      ∧ registryGet "unknown_kind"
          = Except.error TriggerRegistryError.UnknownTriggerKind :=
  ⟨by decide, registryGet_unknown_kind "unknown_kind" (by decide)⟩

/-- C7: the registry is closed after initialization — the module's operation
trace is exactly one object-literal construction producing
`availableTriggers`, and contains no add, remove or replace after it. -/
theorem registry_closed_after_init :
    applyRegistryOps moduleRegistryOps none = some availableTriggers
      ∧ moduleRegistryOps.filter isMutationOp = []
      ∧ moduleRegistryOps.length = 1 := by
  refine ⟨rfl, rfl, rfl⟩

theorem insertPointOrdered_perm (pt : SpamPoint) (st : List SpamPoint) :
    (insertPointOrdered pt st).Perm (pt :: st) := by
  induction st with
  | nil => exact List.Perm.refl _
  | cons q qs ih =>
    by_cases h : pt.timestamp ≤ q.timestamp
    · simp [insertPointOrdered, h]
    · simp only [insertPointOrdered, if_neg h]
      exact (ih.cons q).trans (List.Perm.swap pt q qs)

theorem sumWeights_of_perm {st st' : List SpamPoint} (h : st.Perm st') :
    sumWeights st = sumWeights st' :=
  (h.map SpamPoint.weight).sum_eq

/-- The fold underlying `addPoints`, from an arbitrary starting state: if
every point involved lies within `windowSize` of every other, nothing is
ever purged, and the final state is a permutation of the starting state
followed by the added points. -/
theorem addPoints_fold_perm (windowSize : Int) :
    ∀ (xs : List SpamPoint) (st : List SpamPoint) (c : Int),
      (∀ p, (p ∈ st ∨ p ∈ xs) → ∀ q, (q ∈ st ∨ q ∈ xs) →
          q.timestamp - p.timestamp ≤ windowSize) →
      ((xs.foldl (fun acc pt => addPoint windowSize acc.2 pt) (c, st)).2).Perm
        (st ++ xs) := by
  intro xs
  induction xs with
  | nil => intro st c _; simp
  | cons pt rest ih =>
    intro st c hall
    have hins : (insertPointOrdered pt st).Perm (pt :: st) :=
      insertPointOrdered_perm pt st
    have hkeep : ∀ p ∈ insertPointOrdered pt st,
        windowSize ≤ windowSize → pt.timestamp - windowSize ≤ p.timestamp := by
      intro p hp _
      have hp' : p = pt ∨ p ∈ st := by
        have := hins.mem_iff.mp hp
        simpa using this
      have hple : pt.timestamp - p.timestamp ≤ windowSize := by
        rcases hp' with h | h
        · subst h
          exact hall p (Or.inr (List.mem_cons_self _ _)) p
            (Or.inr (List.mem_cons_self _ _))
        · exact hall p (Or.inl h) pt (Or.inr (List.mem_cons_self _ _))
      omega
    have hfilter :
        (insertPointOrdered pt st).filter
            (fun p => pt.timestamp - windowSize ≤ p.timestamp)
          = insertPointOrdered pt st := by
      apply List.filter_eq_self.mpr
      intro p hp
      exact decide_eq_true (hkeep p hp le_rfl)
    have hstep :
        (addPoint windowSize st pt).2 = insertPointOrdered pt st := by
      simp only [addPoint]
      exact hfilter
    have hmem2 : ∀ p ∈ (addPoint windowSize st pt).2, p = pt ∨ p ∈ st := by
      intro p hp
      rw [hstep] at hp
      simpa using hins.mem_iff.mp hp
    have hall' : ∀ p, (p ∈ (addPoint windowSize st pt).2 ∨ p ∈ rest) →
        ∀ q, (q ∈ (addPoint windowSize st pt).2 ∨ q ∈ rest) →
          q.timestamp - p.timestamp ≤ windowSize := by
      intro p hp q hq
      have hp' : p ∈ st ∨ p ∈ pt :: rest := by
        rcases hp with hp | hp
        · rcases hmem2 p hp with h | h
          · exact Or.inr (h ▸ List.mem_cons_self _ _)
          · exact Or.inl h
        · exact Or.inr (List.mem_cons_of_mem _ hp)
      have hq' : q ∈ st ∨ q ∈ pt :: rest := by
        rcases hq with hq | hq
        · rcases hmem2 q hq with h | h
          · exact Or.inr (h ▸ List.mem_cons_self _ _)
          · exact Or.inl h
        · exact Or.inr (List.mem_cons_of_mem _ hq)
      exact hall p hp' q hq'
    have hrec := ih (addPoint windowSize st pt).2 (addPoint windowSize st pt).1 hall'
    have hfold :
        ((pt :: rest).foldl (fun acc pt => addPoint windowSize acc.2 pt) (c, st)).2
          = ((rest.foldl (fun acc pt => addPoint windowSize acc.2 pt)
              ((addPoint windowSize st pt).1, (addPoint windowSize st pt).2))).2 := by
      simp [List.foldl_cons]
    rw [hfold]
    refine hrec.trans ?_
    have h1 : ((addPoint windowSize st pt).2 ++ rest).Perm ((pt :: st) ++ rest) := by
      apply List.Perm.append_right
      rw [hstep]
      exact hins
    refine h1.trans ?_
    have h2 : ((pt :: st) ++ rest) = pt :: (st ++ rest) := by simp
    rw [h2]
    exact (List.perm_middle).symm

/-- After at least one `addPoint`, the count returned by the last call is the
weight sum of the resulting state. -/
theorem addPoints_fold_count (windowSize : Int) :
    ∀ (rest : List SpamPoint) (pt : SpamPoint) (st : List SpamPoint) (c : Int),
      (((pt :: rest).foldl (fun acc pt => addPoint windowSize acc.2 pt) (c, st))).1
        = sumWeights
            (((pt :: rest).foldl (fun acc pt => addPoint windowSize acc.2 pt) (c, st))).2 := by
  intro rest
  induction rest with
  | nil => intro pt st c; simp [addPoint]
  | cons pt2 rest2 ih =>
    intro pt st c
    have h :
        ((pt :: pt2 :: rest2).foldl (fun acc pt => addPoint windowSize acc.2 pt) (c, st))
          = ((pt2 :: rest2).foldl (fun acc pt => addPoint windowSize acc.2 pt)
              ((addPoint windowSize st pt).1, (addPoint windowSize st pt).2)) := by
      simp [List.foldl_cons]
    rw [h]
    exact ih pt2 (addPoint windowSize st pt).2 (addPoint windowSize st pt).1

/-- C5: for any sequence of points all lying within `windowSize` of one
another, the count returned by the last `addPoint` equals the sum of the
weights of the points whose timestamp is at least `now - windowSize` (with
`now` the last point's timestamp), and any permutation of the insertion
order yields the same count. -/
theorem addPoints_window_sum (windowSize : Int) (pts pts' : List SpamPoint)
    (hne : pts ≠ [])
    (hspan : ∀ p ∈ pts, ∀ q ∈ pts, q.timestamp - p.timestamp ≤ windowSize)
    (hperm : pts'.Perm pts) :
    (addPoints windowSize pts).1
        = sumWeights (pts.filter
            (fun p => (pts.getLast hne).timestamp - windowSize ≤ p.timestamp))
      ∧ (addPoints windowSize pts').1 = (addPoints windowSize pts).1 := by
  have hfilter : pts.filter
      (fun p => (pts.getLast hne).timestamp - windowSize ≤ p.timestamp) = pts := by
    apply List.filter_eq_self.mpr
    intro p hp
    have := hspan p hp (pts.getLast hne) (List.getLast_mem hne)
    exact decide_eq_true (by omega)
  have hcount : ∀ (l : List SpamPoint), l ≠ [] →
      (∀ p ∈ l, ∀ q ∈ l, q.timestamp - p.timestamp ≤ windowSize) →
      (addPoints windowSize l).1 = sumWeights l := by
    intro l hlne hlspan
    match l, hlne with
    | a :: t, _ =>
      have hall : ∀ p, (p ∈ ([] : List SpamPoint) ∨ p ∈ a :: t) →
          ∀ q, (q ∈ ([] : List SpamPoint) ∨ q ∈ a :: t) →
            q.timestamp - p.timestamp ≤ windowSize := by
        intro p hp q hq
        rcases hp with hp | hp
        · exact absurd hp (List.not_mem_nil p)
        · rcases hq with hq | hq
          · exact absurd hq (List.not_mem_nil q)
          · exact hlspan p hp q hq
      have hp := addPoints_fold_perm windowSize (a :: t) [] 0 hall
      have hc := addPoints_fold_count windowSize t a [] 0
      calc (addPoints windowSize (a :: t)).1
          = sumWeights (addPoints windowSize (a :: t)).2 := hc
        _ = sumWeights ([] ++ a :: t) := sumWeights_of_perm hp
        _ = sumWeights (a :: t) := by simp
  have h1 : (addPoints windowSize pts).1 = sumWeights pts := hcount pts hne hspan
  have hne' : pts' ≠ [] := by
    intro h
    rw [h] at hperm
    exact hne (hperm.symm.eq_nil)
  have hspan' : ∀ p ∈ pts', ∀ q ∈ pts', q.timestamp - p.timestamp ≤ windowSize := by
    intro p hp q hq
    exact hspan p (hperm.subset hp) q (hperm.subset hq)
  have h2 : (addPoints windowSize pts').1 = sumWeights pts' := hcount pts' hne' hspan'
  refine ⟨by rw [hfilter, h1], ?_⟩
  rw [h1, h2]
  exact sumWeights_of_perm hperm

/-- Witness for C5: two points with timestamps 0 and 5 inside a window of 10,
inserted in both orders. -/
theorem addPoints_window_sum_witness :
    ([⟨0, 1⟩, ⟨5, 2⟩] : List SpamPoint) ≠ []
      ∧ (([⟨5, 2⟩, ⟨0, 1⟩] : List SpamPoint)).Perm [⟨0, 1⟩, ⟨5, 2⟩]
      ∧ ((addPoints 10 [⟨0, 1⟩, ⟨5, 2⟩]).1
          = sumWeights (([⟨0, 1⟩, ⟨5, 2⟩] : List SpamPoint).filter
              (fun p =>
                (([⟨0, 1⟩, ⟨5, 2⟩] : List SpamPoint).getLast (by decide)).timestamp
                    - 10 ≤ p.timestamp))
        ∧ (addPoints 10 [⟨5, 2⟩, ⟨0, 1⟩]).1 = (addPoints 10 [⟨0, 1⟩, ⟨5, 2⟩]).1) :=
  ⟨by decide, by decide,
    addPoints_window_sum 10 [⟨0, 1⟩, ⟨5, 2⟩] [⟨5, 2⟩, ⟨0, 1⟩]
      (by decide) (by decide) (by decide)⟩

theorem cleanLoop_trace_aux (store : Nat → Nat → Int → List SavedMessage)
    (gI : String → List String) (args : CleanArgs) (chan : Nat) (cutoff : Int) :
    ∀ (fuel : Nat) (cursor : Nat) (acc : List SavedMessage),
      traceOk gI args chan cutoff cursor acc.length
          (cleanLoop store gI args chan cutoff fuel cursor acc).fetches
          (cleanLoop store gI args chan cutoff fuel cursor acc).stop = true
        ∧ (cleanLoop store gI args chan cutoff fuel cursor acc).fetches.all
            (fun f => decide (f.batch = store chan f.beforeId args.count)) = true := by
  intro fuel
  induction fuel with
  | zero => intro cursor acc; exact ⟨rfl, rfl⟩
  | succ n ih =>
    intro cursor acc
    by_cases hcond : (acc.length : Int) < args.count
    · cases hlast : (store chan cursor args.count).getLast? with
      | none =>
        have hloop : cleanLoop store gI args chan cutoff (n + 1) cursor acc
            = ⟨acc, [⟨chan, cursor, args.count, store chan cursor args.count⟩],
                LoopStop.emptyBatch⟩ := by
          simp only [cleanLoop, if_pos hcond, hlast]
        rw [hloop]
        constructor
        · simp [traceOk, hlast, hcond]
        · simp
      | some last =>
        by_cases hold : last.posted_at < cutoff
        · have hloop : cleanLoop store gI args chan cutoff (n + 1) cursor acc
              = ⟨acc ++ ((store chan cursor args.count).filter
                    (messagePassesFilters gI args cutoff)).take
                      (args.count - (acc.length : Int)).toNat,
                  [⟨chan, cursor, args.count, store chan cursor args.count⟩],
                  LoopStop.oldestTooOld⟩ := by
            simp only [cleanLoop, if_pos hcond, hlast, if_pos hold]
          rw [hloop]
          constructor
          · simp [traceOk, hlast, hcond, hold]
          · simp
        · have hloop : cleanLoop store gI args chan cutoff (n + 1) cursor acc
              = ⟨(cleanLoop store gI args chan cutoff n last.id
                    (acc ++ ((store chan cursor args.count).filter
                      (messagePassesFilters gI args cutoff)).take
                        (args.count - (acc.length : Int)).toNat)).messagesToClean,
                  ⟨chan, cursor, args.count, store chan cursor args.count⟩ ::
                    (cleanLoop store gI args chan cutoff n last.id
                      (acc ++ ((store chan cursor args.count).filter
                        (messagePassesFilters gI args cutoff)).take
                          (args.count - (acc.length : Int)).toNat)).fetches,
                  (cleanLoop store gI args chan cutoff n last.id
                    (acc ++ ((store chan cursor args.count).filter
                      (messagePassesFilters gI args cutoff)).take
                        (args.count - (acc.length : Int)).toNat)).stop⟩ := by
            simp only [cleanLoop, if_pos hcond, hlast, if_neg hold]
          have hlen : collectedAfter gI args cutoff acc.length (store chan cursor args.count)
              = (acc ++ ((store chan cursor args.count).filter
                    (messagePassesFilters gI args cutoff)).take
                      (args.count - (acc.length : Int)).toNat).length := by
            simp [collectedAfter]
          have hrec := ih last.id
            (acc ++ ((store chan cursor args.count).filter
              (messagePassesFilters gI args cutoff)).take
                (args.count - (acc.length : Int)).toNat)
          rw [hloop]
          constructor
          · simp only [traceOk, hlast]
            rw [if_neg hold, hlen]
            simp only [Bool.and_eq_true, decide_eq_true_eq, beq_iff_eq]
            exact ⟨⟨⟨⟨hcond, trivial⟩, trivial⟩, trivial⟩, hrec.1⟩
          · simp only [List.all_cons, Bool.and_eq_true, decide_eq_true_eq]
            exact ⟨trivial, hrec.2⟩
    · have hloop : cleanLoop store gI args chan cutoff (n + 1) cursor acc
          = ⟨acc, [], LoopStop.quotaReached⟩ := by
        simp only [cleanLoop, if_neg hcond]
      rw [hloop]
      constructor
      · simp [traceOk]
        omega
      · rfl

/-- C4: the paging loop's fetch trace obeys the claimed discipline: starting
from the invoking message's id, every store fetch uses the target channel
id, the current cursor and the requested count as limit; after each
non-empty batch the cursor advances to the id of the batch's last (oldest)
message; and the loop stops exactly on an empty batch, on the batch's
oldest message being older than the one-day cutoff, on the requested count
having been collected, or on the fuel bound.  Every recorded batch is the
store's answer for the recorded arguments. -/
theorem cleanLoop_paging_spec (store : Nat → Nat → Int → List SavedMessage)
    (gI : String → List String) (args : CleanArgs) (targetChannelId : Nat)
    (fuel : Nat) (msg : Msg) :
    traceOk gI args targetChannelId (msg.timestamp - MAX_CLEAN_TIME) msg.id 0
        (cleanLoop store gI args targetChannelId (msg.timestamp - MAX_CLEAN_TIME)
          fuel msg.id []).fetches
        (cleanLoop store gI args targetChannelId (msg.timestamp - MAX_CLEAN_TIME)
          fuel msg.id []).stop = true
      ∧ ((cleanLoop store gI args targetChannelId (msg.timestamp - MAX_CLEAN_TIME)
            fuel msg.id []).fetches.all
          (fun f => decide (f.batch = store targetChannelId f.beforeId args.count))) = true :=
  cleanLoop_trace_aux store gI args targetChannelId (msg.timestamp - MAX_CLEAN_TIME)
    fuel msg.id []

/-- C8: an out-of-range count (over 150 or not positive) makes `run` send
the "Clean count must be between 1 and 150" error and return without
querying the store, without passing anything to `cleanMessages`, and without
scheduling any deletion. -/
theorem run_count_guard (store : Nat → Nat → Int → List SavedMessage)
    (gI : String → List String) (channels : Nat → Option GuildChannel)
    (canClean : Nat → Bool) (fuel : Nat) (msg : Msg) (args : CleanArgs)
    (h : args.count > MAX_CLEAN_COUNT ∨ args.count ≤ 0) :
    run store gI channels canClean fuel msg args
        = ⟨CleanResponse.countError, [], [], none⟩
      ∧ responseText CleanResponse.countError
          = "Clean count must be between 1 and 150" := by
  constructor
  · simp [run, h]
  · rfl

/-- Witness for C8 at count 151. -/
theorem run_count_guard_witness :
    ((151 : Int) > MAX_CLEAN_COUNT ∨ (151 : Int) ≤ 0)
      ∧ (run (fun _ _ _ => []) (fun _ => []) (fun _ => none) (fun _ => false) 5
            ⟨1, 2, 3, 0⟩ ⟨151, none, none, false, false⟩
            = ⟨CleanResponse.countError, [], [], none⟩
        ∧ responseText CleanResponse.countError
            = "Clean count must be between 1 and 150") :=
  ⟨Or.inl (by decide),
    run_count_guard (fun _ _ _ => []) (fun _ => []) (fun _ => none) (fun _ => false) 5
      ⟨1, 2, 3, 0⟩ ⟨151, none, none, false, false⟩ (Or.inl (by decide))⟩

theorem cleanLoop_length_le (store : Nat → Nat → Int → List SavedMessage)
    (gI : String → List String) (args : CleanArgs) (chan : Nat) (cutoff : Int) :
    ∀ (fuel : Nat) (cursor : Nat) (acc : List SavedMessage),
      (acc.length : Int) ≤ args.count →
      (((cleanLoop store gI args chan cutoff fuel cursor acc).messagesToClean).length : Int)
        ≤ args.count := by
  intro fuel
  induction fuel with
  | zero => intro cursor acc hacc; exact hacc
  | succ n ih =>
    intro cursor acc hacc
    have hgrow : ∀ (batch : List SavedMessage),
        (((acc ++ (batch.filter (messagePassesFilters gI args cutoff)).take
            (args.count - (acc.length : Int)).toNat).length : Int)) ≤ args.count := by
      intro batch
      have htake : ((batch.filter (messagePassesFilters gI args cutoff)).take
          (args.count - (acc.length : Int)).toNat).length
            ≤ (args.count - (acc.length : Int)).toNat := by
        simp [List.length_take_le]
      rw [List.length_append]
      push_cast
      omega
    by_cases hcond : (acc.length : Int) < args.count
    · cases hlast : (store chan cursor args.count).getLast? with
      | none =>
        have hloop : cleanLoop store gI args chan cutoff (n + 1) cursor acc
            = ⟨acc, [⟨chan, cursor, args.count, store chan cursor args.count⟩],
                LoopStop.emptyBatch⟩ := by
          simp only [cleanLoop, if_pos hcond, hlast]
        rw [hloop]
        exact hacc
      | some last =>
        by_cases hold : last.posted_at < cutoff
        · have hloop : cleanLoop store gI args chan cutoff (n + 1) cursor acc
              = ⟨acc ++ ((store chan cursor args.count).filter
                    (messagePassesFilters gI args cutoff)).take
                      (args.count - (acc.length : Int)).toNat,
                  [⟨chan, cursor, args.count, store chan cursor args.count⟩],
                  LoopStop.oldestTooOld⟩ := by
            simp only [cleanLoop, if_pos hcond, hlast, if_pos hold]
          rw [hloop]
          exact hgrow _
        · have hloop : (cleanLoop store gI args chan cutoff (n + 1) cursor acc).messagesToClean
              = (cleanLoop store gI args chan cutoff n last.id
                  (acc ++ ((store chan cursor args.count).filter
                    (messagePassesFilters gI args cutoff)).take
                      (args.count - (acc.length : Int)).toNat)).messagesToClean := by
            simp only [cleanLoop, if_pos hcond, hlast, if_neg hold]
          rw [hloop]
          exact ih last.id _ (hgrow _)
    · have hloop : cleanLoop store gI args chan cutoff (n + 1) cursor acc
          = ⟨acc, [], LoopStop.quotaReached⟩ := by
        simp only [cleanLoop, if_neg hcond]
      rw [hloop]
      exact hacc

/-- C9: with a positive count, the number of messages the command collects
and passes to `cleanMessages` never exceeds the requested count. -/
theorem run_clean_count_bound (store : Nat → Nat → Int → List SavedMessage)
    (gI : String → List String) (channels : Nat → Option GuildChannel)
    (canClean : Nat → Bool) (fuel : Nat) (msg : Msg) (args : CleanArgs)
    (h : 0 < args.count) :
    (((run store gI channels canClean fuel msg args).cleaned).length : Int)
      ≤ args.count := by
  unfold run
  split
  · simpa using h.le
  · split
    · simpa using h.le
    · split
      · simpa using h.le
      · split
        · simpa using h.le
        · exact cleanLoop_length_le store gI args _ _ fuel msg.id []
            (by simpa using h.le)

/-- Witness for C9: a store repeatedly answering with fresh messages, count
2, fuel 6 — exactly 2 messages are collected. -/
theorem run_clean_count_bound_witness :
    (0 : Int) < 2
      ∧ (((run (fun _ b _ => [⟨b - 1, 7, false, "", 1000000000⟩])
            (fun _ => []) (fun _ => none) (fun _ => false) 6
            ⟨100, 2, 3, 1000000000⟩ ⟨2, none, none, false, false⟩).cleaned).length : Int)
          ≤ 2 :=
  ⟨by decide,
    run_clean_count_bound (fun _ b _ => [⟨b - 1, 7, false, "", 1000000000⟩])
      (fun _ => []) (fun _ => none) (fun _ => false) 6
      ⟨100, 2, 3, 1000000000⟩ ⟨2, none, none, false, false⟩ (by decide)⟩

theorem cleanLoop_mem_passes (store : Nat → Nat → Int → List SavedMessage)
    (gI : String → List String) (args : CleanArgs) (chan : Nat) (cutoff : Int) :
    ∀ (fuel : Nat) (cursor : Nat) (acc : List SavedMessage) (m : SavedMessage),
      m ∈ (cleanLoop store gI args chan cutoff fuel cursor acc).messagesToClean →
      m ∈ acc ∨ messagePassesFilters gI args cutoff m = true := by
  intro fuel
  induction fuel with
  | zero => intro cursor acc m hm; exact Or.inl hm
  | succ n ih =>
    intro cursor acc m hm
    have happend : ∀ (batch : List SavedMessage),
        m ∈ acc ++ (batch.filter (messagePassesFilters gI args cutoff)).take
            (args.count - (acc.length : Int)).toNat →
        m ∈ acc ∨ messagePassesFilters gI args cutoff m = true := by
      intro batch hmem
      rcases List.mem_append.mp hmem with h | h
      · exact Or.inl h
      · have hfil : m ∈ batch.filter (messagePassesFilters gI args cutoff) :=
          List.mem_of_mem_take h
        exact Or.inr (List.of_mem_filter hfil)
    by_cases hcond : (acc.length : Int) < args.count
    · cases hlast : (store chan cursor args.count).getLast? with
      | none =>
        have hloop : cleanLoop store gI args chan cutoff (n + 1) cursor acc
            = ⟨acc, [⟨chan, cursor, args.count, store chan cursor args.count⟩],
                LoopStop.emptyBatch⟩ := by
          simp only [cleanLoop, if_pos hcond, hlast]
        rw [hloop] at hm
        exact Or.inl hm
      | some last =>
        by_cases hold : last.posted_at < cutoff
        · have hloop : cleanLoop store gI args chan cutoff (n + 1) cursor acc
              = ⟨acc ++ ((store chan cursor args.count).filter
                    (messagePassesFilters gI args cutoff)).take
                      (args.count - (acc.length : Int)).toNat,
                  [⟨chan, cursor, args.count, store chan cursor args.count⟩],
                  LoopStop.oldestTooOld⟩ := by
            simp only [cleanLoop, if_pos hcond, hlast, if_pos hold]
          rw [hloop] at hm
          exact happend _ hm
        · have hloop : (cleanLoop store gI args chan cutoff (n + 1) cursor acc).messagesToClean
              = (cleanLoop store gI args chan cutoff n last.id
                  (acc ++ ((store chan cursor args.count).filter
                    (messagePassesFilters gI args cutoff)).take
                      (args.count - (acc.length : Int)).toNat)).messagesToClean := by
            simp only [cleanLoop, if_pos hcond, hlast, if_neg hold]
          rw [hloop] at hm
          rcases ih last.id _ m hm with h | h
          · exact happend _ h
          · exact Or.inr h
    · have hloop : cleanLoop store gI args chan cutoff (n + 1) cursor acc
          = ⟨acc, [], LoopStop.quotaReached⟩ := by
        simp only [cleanLoop, if_neg hcond]
      rw [hloop] at hm
      exact Or.inl hm

/-- C10: every message passed to `cleanMessages` satisfies all active
filters of the invocation: the user option when given, the bots switch, the
has-invites switch, and the one-day age cutoff relative to the invoking
message's timestamp. -/
theorem run_cleaned_filters (store : Nat → Nat → Int → List SavedMessage)
    (gI : String → List String) (channels : Nat → Option GuildChannel)
    (canClean : Nat → Bool) (fuel : Nat) (msg : Msg) (args : CleanArgs)
    (m : SavedMessage)
    (h : m ∈ (run store gI channels canClean fuel msg args).cleaned) :
    Option.all (fun u => m.user_id == u) args.user = true
      ∧ (!args.bots || m.is_bot) = true
      ∧ (!args.has_invites || !(gI m.content).isEmpty) = true
      ∧ msg.timestamp - MAX_CLEAN_TIME ≤ m.posted_at := by
  have hpass : messagePassesFilters gI args (msg.timestamp - MAX_CLEAN_TIME) m = true := by
    revert h
    unfold run
    split
    · intro h; exact absurd h (List.not_mem_nil m)
    · split
      · intro h; exact absurd h (List.not_mem_nil m)
      · split
        · intro h; exact absurd h (List.not_mem_nil m)
        · split
          · intro h; exact absurd h (List.not_mem_nil m)
          · intro h
            rcases cleanLoop_mem_passes store gI args _ _ fuel msg.id [] m h with h' | h'
            · exact absurd h' (List.not_mem_nil m)
            · exact h'
  unfold messagePassesFilters at hpass
  split_ifs at hpass with h1 h2 h3 h4
  refine ⟨?_, ?_, ?_, ?_⟩
  · cases hu : args.user with
    | none => rfl
    | some u =>
      rw [hu] at h1
      simp only [Option.any_some, bne_iff_ne, ne_eq, not_not] at h1
      simp [Option.all_some, h1]
  · revert h2
    cases args.bots <;> cases m.is_bot <;> simp
  · revert h3
    cases args.has_invites <;> cases hgl : gI m.content <;> simp
  · omega

/-- Witness for C10: a single stored message from user 7 cleaned with the
user filter set to 7. -/
theorem run_cleaned_filters_witness :
    (⟨50, 7, false, "x", 999995000⟩ : SavedMessage)
        ∈ (run (fun _ b _ => if b == 100 then [⟨50, 7, false, "x", 999995000⟩] else [])
            (fun _ => []) (fun _ => none) (fun _ => false) 3
            ⟨100, 2, 42, 1000000000⟩ ⟨5, some 7, none, false, false⟩).cleaned
      ∧ (Option.all (fun u => (7 : Nat) == u) (some 7) = true
        ∧ (!false || false) = true
        ∧ (!false || !(([] : List String)).isEmpty) = true
        ∧ (1000000000 : Int) - MAX_CLEAN_TIME ≤ 999995000) :=
  ⟨by decide,
    run_cleaned_filters (fun _ b _ => if b == 100 then [⟨50, 7, false, "x", 999995000⟩] else [])
      (fun _ => []) (fun _ => none) (fun _ => false) 3
      ⟨100, 2, 42, 1000000000⟩ ⟨5, some 7, none, false, false⟩
      ⟨50, 7, false, "x", 999995000⟩ (by decide)⟩

/-- C6: whenever the count guard passes and a text target channel resolves,
the delayed deletion of the invoking message and the response message is
scheduled exactly when the target channel is the invoking channel, with the
fixed 5-second delay `CLEAN_COMMAND_DELETE_DELAY`; a different target
channel schedules no deletion. -/
theorem run_delayed_deletion_iff (store : Nat → Nat → Int → List SavedMessage)
    (gI : String → List String) (channels : Nat → Option GuildChannel)
    (canClean : Nat → Bool) (fuel : Nat) (msg : Msg) (args : CleanArgs)
    (tc : GuildChannel)
    (hcount : ¬(args.count > MAX_CLEAN_COUNT ∨ args.count ≤ 0))
    (hres : resolveTargetChannel channels msg args = some tc)
    (htext : tc.isTextChannel = true) :
    (run store gI channels canClean fuel msg args).scheduledDeletion
        = (if tc.id = msg.channelId then some CLEAN_COMMAND_DELETE_DELAY else none)
      ∧ CLEAN_COMMAND_DELETE_DELAY = 5 * SECONDS := by
  constructor
  · unfold run
    rw [if_neg hcount]
    simp only [hres]
    rw [if_neg (show ¬tc.isTextChannel = false by simp [htext])]
    by_cases hperm : tc.id ≠ msg.channelId ∧ canClean tc.id ≠ true
    · rw [if_pos hperm]
      simp [hperm.1]
    · rw [if_neg hperm]
  · rfl

/-- Witness for C6: cleaning the invoking channel itself schedules the
5-second delayed deletion. -/
theorem run_delayed_deletion_iff_witness :
    ¬((5 : Int) > MAX_CLEAN_COUNT ∨ (5 : Int) ≤ 0)
      ∧ resolveTargetChannel (fun _ => none) ⟨100, 2, 42, 0⟩
          ⟨5, none, none, false, false⟩ = some ⟨2, true⟩
      ∧ (⟨2, true⟩ : GuildChannel).isTextChannel = true
      ∧ ((run (fun _ _ _ => []) (fun _ => []) (fun _ => none) (fun _ => false) 3
            ⟨100, 2, 42, 0⟩ ⟨5, none, none, false, false⟩).scheduledDeletion
          = (if (⟨2, true⟩ : GuildChannel).id = (⟨100, 2, 42, 0⟩ : Msg).channelId
              then some CLEAN_COMMAND_DELETE_DELAY else none)
        ∧ CLEAN_COMMAND_DELETE_DELAY = 5 * SECONDS) :=
  ⟨by decide, rfl, rfl,
    run_delayed_deletion_iff (fun _ _ _ => []) (fun _ => []) (fun _ => none)
      (fun _ => false) 3 ⟨100, 2, 42, 0⟩ ⟨5, none, none, false, false⟩ ⟨2, true⟩
      (by decide) rfl rfl⟩

end Zeppelin
